import Mathlib

/-!
Shallow embedding of the four pipeline variants of the
online-data-exchange repository:

* `cos_aliyun_fileze_limit_sync.py` — threaded variant (`SY` prefix):
  `BufferedUploader.write` under a per-buffer lock, `_submit_upload`
  hands the gzip payload to an upload pool, `_do_upload` runs
  asynchronously and sets `uploaded` when it finishes.
* `cos_to_aliyun_filesize_limit.py` — single-threaded streaming variant
  (`FL` prefix): `BufferedUploader.write` and a synchronous `_flush`
  that uploads in place and closes the byte buffer in a `finally:`.
* `online_to_aliyun.py` — batch variant (`oa` prefix): groups raw lines,
  truncates each group to its size limit, uploads raw lines.
* `online_to_aliyun2.py` — streaming batch variant (`oa2` prefix):
  `process_line` appends raw lines to per-key buffers under a limit.

Machine integers do not occur (Python ints are unbounded), byte sizes
are `Nat`, the gzip sink is abstracted to the list of lines written into
it, and the object stores and `pycountry` are opaque collaborators:
uploads are recorded as `(key, payload)` pairs and the country lookup is
a `String → Option String` parameter.
-/

/-- UTF-8 byte count of `(line + '\n').encode('utf-8')`, the quantity
`added_size = len(line_bytes)` of `BufferedUploader.write`. -/
def encodedSize (line : String) : Nat := (line ++ "\n").utf8ByteSize

/-- `Σ` of `encodedSize` over a list of lines. -/
def sumEncoded (lines : List String) : Nat := (lines.map encodedSize).sum

/-- Python's `str.upper()` on the character list (the codes involved
are ASCII). -/
def pyUpper (s : String) : String := ⟨s.data.map Char.toUpper⟩

/-- Python's `str.lower()` on the character list. -/
def pyLower (s : String) : String := ⟨s.data.map Char.toLower⟩

/-- Python's `str.strip()`: drop leading and trailing whitespace. -/
def pyStrip (s : String) : String :=
  ⟨((s.data.dropWhile Char.isWhitespace).reverse.dropWhile
      Char.isWhitespace).reverse⟩

/-- Prefix test on the character lists (Python `str.startswith`). -/
def strStartsWith (s p : String) : Bool := p.data.isPrefixOf s.data

/-- Python's `if self.limit_bytes and self.current_size + added_size >
self.limit_bytes:`: `None` and `0` are falsy, so no limit check happens
for them. -/
def limitExceeded (lim : Option Nat) (n : Nat) : Bool :=
  match lim with
  | none => false
  | some l => if l = 0 then false else decide (l < n)

/-- Python's `if not SIZE_LIMITS_MB.get(key):` — true for a missing key
and for a value of `0`. -/
def pyFalsyLimit (v : Option Nat) : Bool :=
  match v with
  | none => true
  | some n => n = 0

/-- `limit_mb * 1024 * 1024 if limit_mb else None` of the
`BufferedUploader` constructor. -/
def mkLimitBytes (limit_mb : Option Nat) : Option Nat :=
  match limit_mb with
  | none => none
  | some mb => if mb = 0 then none else some (mb * 1024 * 1024)

/-- Association lookup, the model of Python `dict.get`. -/
def lookupAssoc {α : Type} [DecidableEq α] {β : Type} :
    List (α × β) → α → Option β
  | [], _ => none
  | (k', v) :: rest, k => if k' = k then some v else lookupAssoc rest k

/-- A grouping key `(platform, geo3)`. -/
abbrev GKey := String × String

/-- `SIZE_LIMITS_MB.get((platform, geo3))`. -/
def limLookup (lims : List (GKey × Nat)) (k : GKey) : Option Nat :=
  lookupAssoc lims k

/-- One parsed log record: the JSON fields the scripts read via
`data.get(...)`, each defaulting to `""`. -/
structure Record where
  country_code : String
  platform : String
  display_manager : String
  deviceId : String
  brand : String
  user_agent : String
  ip : String
  language : String
  timestamp : String
  os_version : String
  app_id : String
  model : String
  network_type : String
deriving DecidableEq

/-- `country_2to3_lower`: `pycountry.countries.get(alpha_2=cc2)` is the
opaque lookup `lk`; a hit yields `alpha_3.lower()`, a miss `"xxx"`. -/
def country_2to3_lower (lk : String → Option String) (cc2 : String) : String :=
  match lk cc2 with
  | some a3 => pyLower a3
  | none => "xxx"

/-- Country-code normalisation of the two COS streaming variants:
`cc2 = data.get("country_code", "").strip().upper()` followed by
`if cc2 == "UK": cc2 = "GB"`. -/
def normCC (s : String) : String :=
  let c := pyUpper (pyStrip s)
  if c = "UK" then "GB" else c

/-- Record classification shared by `cos_to_aliyun_filesize_limit.py`
(main loop, lines 239-256) and `cos_aliyun_fileze_limit_sync.py`
(`process_single_file`, lines 220-242): UK→GB rewrite, platform
whitelist, `"xxx"` drop, and the falsy `SIZE_LIMITS_MB.get` drop. -/
def classifyCOS (lk : String → Option String) (lims : List (GKey × Nat))
    (r : Record) : Option GKey :=
  let cc2 := normCC r.country_code
  let platform := pyLower (pyStrip r.platform)
  if platform = "android" ∨ platform = "ios" then
    let geo3 := country_2to3_lower lk cc2
    if geo3 = "xxx" then none
    else if pyFalsyLimit (limLookup lims (platform, geo3)) then none
    else some (platform, geo3)
  else none

/-- Record classification of `online_to_aliyun.py` (main, lines
200-210): no UK rewrite, no `"xxx"` drop, no size-table check. -/
def classifyOA (lk : String → Option String) (r : Record) : Option GKey :=
  let cc2 := pyUpper (pyStrip r.country_code)
  let platform := pyLower (pyStrip r.platform)
  if platform = "android" ∨ platform = "ios" then
    some (platform, country_2to3_lower lk cc2)
  else none

/-- `osi` of `transform_line`: `2` for `"android"`, `1` for `"ios"`,
`0` otherwise (the raw `data.get("platform", "")`). -/
def platformCode (p : String) : Nat :=
  if p = "android" then 2 else if p = "ios" then 1 else 0

/-- Python's `sep.join(fields)`. -/
def pyJoin (sep : String) : List String → String
  | [] => ""
  | f :: fs => fs.foldl (fun acc g => acc ++ sep ++ g) f

/-- `transform_line` of both COS variants: thirteen fields joined by
`"@"`. -/
def transform_line (r : Record) (geo3 : String) : String :=
  pyJoin "@"
    [pyUpper geo3, toString (platformCode r.platform), r.display_manager,
     r.deviceId, r.brand, r.user_agent, r.ip, r.language, r.timestamp,
     r.os_version, r.app_id, r.model, r.network_type]

/-- Destination object key of both COS variants:
`f"track/{date_part}/{hour_part}/{platform}.{geo3}.log.gz"`. -/
def syKey (platform geo3 date_part hour_part : String) : String :=
  "track/" ++ date_part ++ "/" ++ hour_part ++ "/" ++
    (platform ++ "." ++ geo3 ++ ".log.gz")

/-- `ALI_BUCKET_NAME` of all four scripts. -/
def ALI_BUCKET_NAME : String := "tracking-collect-data-test"

/-- Destination path of `online_to_aliyun.py` / `online_to_aliyun2.py`:
`f"{ALI_BUCKET_NAME}/track/{date_part}/{hour_part}/{filename}"` — note
the bucket name is part of the object key put into the bucket. -/
def oaFullPath (date_part hour_part platform geo3 : String) : String :=
  ALI_BUCKET_NAME ++ "/track/" ++ date_part ++ "/" ++ hour_part ++ "/" ++
    (platform ++ "." ++ geo3 ++ ".log.gz")

/-- `dt.replace(minute=0, second=0, microsecond=0)` on a time measured
in minutes: truncation to the hour. -/
def truncHour (n : Int) : Int := n - n % 60

/-- `utc0_hour_dt` of `get_time_ranges_for_previous_hour`: the previous
hour in UTC+0, minutes since the epoch. -/
def utc0PrevHour (nowUtc : Int) : Int := truncHour nowUtc - 60

/-- `utc8_prev_hour` of `get_time_ranges_for_previous_hour`: the
previous hour after shifting the clock by 8 hours (480 minutes). -/
def utc8PrevHour (nowUtc : Int) : Int := truncHour (nowUtc + 480) - 60

/-- Outcome of one `BufferedUploader.write` call, observationally:
`accepted` appends the line, `droppedUploaded` is the `if self.uploaded:
return` guard, `droppedOverflow` the budget branch, and `error` an
exception escaping `write` (gzip write on a closed sink). -/
inductive WriteOutcome
  | accepted
  | droppedUploaded
  | droppedOverflow
  | error
deriving DecidableEq

/-- `BufferedUploader` state of `cos_aliyun_fileze_limit_sync.py`: the
gzip sink is abstracted to the list of lines written into it. -/
structure SYBuf where
  limit_bytes : Option Nat
  lines : List String
  current_size : Nat
  line_count : Nat
  gz_closed : Bool
  uploaded : Bool
  platform : String
  geo3 : String
  date_part : String
  hour_part : String
deriving DecidableEq

/-- A fresh `BufferedUploader(platform, geo3, limit_mb, ...)`. -/
def SYBuf.init (limit_bytes : Option Nat) (platform geo3 date_part hour_part : String) :
    SYBuf :=
  { limit_bytes := limit_bytes, lines := [], current_size := 0,
    line_count := 0, gz_closed := false, uploaded := false,
    platform := platform, geo3 := geo3, date_part := date_part,
    hour_part := hour_part }

/-- `BufferedUploader.write` of the threaded variant (lines 115-129),
one lock-protected call.  Returns the new buffer, the payload handed to
`upload_executor.submit` when `_submit_upload` submitted one, and the
observable outcome.  `_submit_upload` (lines 131-140) closes the gzip
sink and submits the accumulated payload unless `line_count == 0 or
self.uploaded`; `uploaded` is NOT set here — only the asynchronous
`_do_upload` sets it.  A write that passes the budget check while the
sink is already closed raises (`gz_file.write` on a closed file). -/
def SYBuf.write1 (b : SYBuf) (line : String) :
    SYBuf × Option (List String) × WriteOutcome :=
  if b.uploaded then (b, none, .droppedUploaded)
  else
    let added := encodedSize line
    if limitExceeded b.limit_bytes (b.current_size + added) then
      if b.line_count = 0 then (b, none, .droppedOverflow)
      else ({ b with gz_closed := true }, some b.lines, .droppedOverflow)
    else if b.gz_closed then (b, none, .error)
    else
      ({ b with
          lines := b.lines ++ [line]
          current_size := b.current_size + added
          line_count := b.line_count + 1 }, none, .accepted)

/-- One buffer plus the global upload pool of the threaded variant:
`pending` holds payloads submitted to `upload_executor` whose
`_do_upload` has not run yet, `uploads` the `put_object` calls already
made, `submitted` counts `upload_executor.submit` calls. -/
structure SYState where
  buf : SYBuf
  pending : List (List String)
  uploads : List (String × List String)
  submitted : Nat
deriving DecidableEq

def SYState.init (limit_bytes : Option Nat) (platform geo3 date_part hour_part : String) :
    SYState :=
  { buf := SYBuf.init limit_bytes platform geo3 date_part hour_part,
    pending := [], uploads := [], submitted := 0 }

/-- A `write` call routed through the state: a submitted payload joins
the upload pool's queue. -/
def SYState.write (s : SYState) (line : String) : SYState × WriteOutcome :=
  match s.buf.write1 line with
  | (b, none, o) => ({ s with buf := b }, o)
  | (b, some c, o) =>
      ({ s with
          buf := b
          pending := s.pending ++ [c]
          submitted := s.submitted + 1 }, o)

/-- The upload pool runs the oldest queued `_do_upload(content)` (lines
142-150): `put_object` is attempted (recorded in `uploads`) and
`self.uploaded = True` is set afterwards, success or not. -/
def SYState.runUpload (s : SYState) : SYState :=
  match s.pending with
  | [] => s
  | c :: rest =>
      { s with
          pending := rest
          uploads := s.uploads ++
            [(syKey s.buf.platform s.buf.geo3 s.buf.date_part s.buf.hour_part, c)]
          buf := { s.buf with uploaded := true } }

/-- An event of the threaded variant's schedule: a worker writing a
line, or the upload pool running one queued task. -/
inductive SYEvent
  | write (line : String)
  | runUpload
deriving DecidableEq

def SYState.step (s : SYState) : SYEvent → SYState
  | .write l => (s.write l).1
  | .runUpload => s.runUpload

def SYState.run (s : SYState) : List SYEvent → SYState
  | [] => s
  | e :: es => SYState.run (s.step e) es

/-- `upload_executor.shutdown(wait=True)` at the end of `main` (line
261): every queued task runs; no remaining buffer is flushed. -/
def SYState.finish (s : SYState) : SYState :=
  { s with
      pending := []
      uploads := s.uploads ++ s.pending.map
        (fun c => (syKey s.buf.platform s.buf.geo3 s.buf.date_part s.buf.hour_part, c))
      buf := if s.pending.isEmpty then s.buf else { s.buf with uploaded := true } }

/-- Fold of `SYState.write` over consecutive lines, outcomes dropped —
the caller's per-line `try/except Exception: pass` swallows every
outcome and continues with the next line. -/
def writeAll (s : SYState) : List String → SYState
  | [] => s
  | l :: ls => writeAll (s.write l).1 ls

/-- Result of one `_flush` call of `cos_to_aliyun_filesize_limit.py`
(lines 124-144), observationally: `skipped` is the `line_count == 0 or
self.uploaded` guard, `uploaded` the successful `put_object`, `failed`
the caught exception path (upload error, or the seek on an already
closed buffer). -/
inductive FlushResult
  | uploaded
  | skipped
  | failed
deriving DecidableEq

/-- `BufferedUploader` state of `cos_to_aliyun_filesize_limit.py`.
`put_attempts` records every `put_object` call made on behalf of this
buffer, with its destination key and payload. -/
structure FLBuf where
  limit_bytes : Option Nat
  lines : List String
  current_size : Nat
  line_count : Nat
  gz_closed : Bool
  buf_closed : Bool
  uploaded : Bool
  platform : String
  geo3 : String
  date_part : String
  hour_part : String
  put_attempts : List (String × List String)
deriving DecidableEq

def FLBuf.init (limit_bytes : Option Nat) (platform geo3 date_part hour_part : String) :
    FLBuf :=
  { limit_bytes := limit_bytes, lines := [], current_size := 0,
    line_count := 0, gz_closed := false, buf_closed := false,
    uploaded := false, platform := platform, geo3 := geo3,
    date_part := date_part, hour_part := hour_part, put_attempts := [] }

/-- `_flush` (lines 124-144): guard, `gz_file.close()` (a no-op when
already closed), then `try: buffer.seek(0); put_object ... except:
log ... finally: buffer.close()`.  `ok` is whether the upload I/O
succeeds.  When the byte buffer was already closed by an earlier flush,
`seek` raises before `put_object`, the exception is caught, and the call
returns having done nothing. -/
def FLBuf.flush (ok : Bool) (b : FLBuf) : FLBuf × FlushResult :=
  if b.line_count = 0 ∨ b.uploaded then (b, .skipped)
  else
    let b1 := { b with gz_closed := true }
    if b1.buf_closed then (b1, .failed)
    else
      let key := syKey b1.platform b1.geo3 b1.date_part b1.hour_part
      let b2 := { b1 with
                  put_attempts := b1.put_attempts ++ [(key, b1.lines)]
                  buf_closed := true }
      if ok then ({ b2 with uploaded := true }, .uploaded) else (b2, .failed)

/-- `BufferedUploader.write` of the streaming variant (lines 107-122):
an overflowing write calls `_flush` in place; a fitting write on a
closed gzip sink raises (caught by the caller's per-line handler). -/
def FLBuf.write (ok : Bool) (b : FLBuf) (line : String) : FLBuf × WriteOutcome :=
  if b.uploaded then (b, .droppedUploaded)
  else
    let added := encodedSize line
    if limitExceeded b.limit_bytes (b.current_size + added) then
      ((FLBuf.flush ok b).1, .droppedOverflow)
    else if b.gz_closed then (b, .error)
    else ({ b with
            lines := b.lines ++ [line]
            current_size := b.current_size + added
            line_count := b.line_count + 1 }, .accepted)

/-- An event on one streaming-variant buffer: a write (with the upload
oracle used if it triggers a flush) or an explicit `_flush` call. -/
inductive FLEvent
  | write (ok : Bool) (line : String)
  | flushEv (ok : Bool)
deriving DecidableEq

def FLBuf.step (b : FLBuf) : FLEvent → FLBuf
  | .write ok l => (b.write ok l).1
  | .flushEv ok => (b.flush ok).1

def FLBuf.runFL (b : FLBuf) : List FLEvent → FLBuf
  | [] => b
  | e :: es => FLBuf.runFL (b.step e) es

/-- The end-of-run drain of `cos_to_aliyun_filesize_limit.py` (lines
279-280): `for uploader in uploaders.values(): uploader._flush()`,
with `ok` the upload oracle. -/
def drainAll (ok : Bool) (bufs : List FLBuf) : List FLBuf :=
  bufs.map (fun b => (b.flush ok).1)

/-- Per-key group state of `online_to_aliyun.py`: the raw lines
collected for the key (Step 2 appends the unparsed input line). -/
def updateAssoc (gs : List (GKey × List String)) (k : GKey) (raw : String) :
    List (GKey × List String) :=
  match gs with
  | [] => [(k, [raw])]
  | (k', v) :: rest =>
      if k' = k then (k', v ++ [raw]) :: rest
      else (k', v) :: updateAssoc rest k raw

/-- The grouping loop of Step 2 of `online_to_aliyun.py` main (lines
200-213), folding over the remaining `(raw line, parse result)` pairs: a
parse failure (`none` record) or an unclassifiable record is skipped,
anything else appends the raw line to its group. -/
def oaGroupFrom (lk : String → Option String) :
    List (String × Option Record) → List (GKey × List String) →
    List (GKey × List String)
  | [], gs => gs
  | (raw, r?) :: rest, gs =>
      match r? with
      | none => oaGroupFrom lk rest gs
      | some r =>
          match classifyOA lk r with
          | none => oaGroupFrom lk rest gs
          | some k => oaGroupFrom lk rest (updateAssoc gs k raw)

/-- Step 2 of `online_to_aliyun.py` main: group the raw lines by
classification, starting from no groups. -/
def oaGroup (lk : String → Option String)
    (inputs : List (String × Option Record)) : List (GKey × List String) :=
  oaGroupFrom lk inputs []

/-- The truncation loop of Step 3 (lines 232-240): keep lines while they
fit, `break` at the first overflow. -/
def oaTruncate (maxBytes : Nat) : Nat → List String → List String
  | _, [] => []
  | cur, l :: ls =>
      let sz := l.utf8ByteSize + 1
      if maxBytes < cur + sz then []
      else l :: oaTruncate maxBytes (cur + sz) ls

/-- Step 3 of `online_to_aliyun.py` (lines 225-243): a key with no
entry in `SIZE_LIMITS_MB` keeps all its lines; a limited key is
truncated to `limit_mb * 1024 * 1024` bytes. -/
def oaSelect (limsMB : List (GKey × Nat)) (k : GKey) (lines : List String) :
    List String :=
  match limLookup limsMB k with
  | none => lines
  | some mb => oaTruncate (mb * 1024 * 1024) 0 lines

/-- Step 4 of `online_to_aliyun.py` (lines 252-271): skip empty tasks,
else upload `'\n'.join(lines)` (gzip is opaque) under `full_path`. -/
def oaUploads (limsMB : List (GKey × Nat)) (date_part hour_part : String)
    (gs : List (GKey × List String)) : List (String × String) :=
  (gs.map (fun g => (g.1, oaSelect limsMB g.1 g.2))).foldr
    (fun g acc =>
      if g.2.isEmpty then acc
      else (oaFullPath date_part hour_part g.1.1 g.1.2, pyJoin "\n" g.2) :: acc)
    []

/-- Per-key buffer of `online_to_aliyun2.py`: the defaultdict entry
`{'lines': [...], 'current_size': n}`. -/
abbrev OA2Buffers := List (GKey × (List String × Nat))

/-- Reading `buffers[key]` on a defaultdict creates the entry. -/
def oa2Ensure (bufs : OA2Buffers) (k : GKey) : OA2Buffers :=
  match lookupAssoc bufs k with
  | some _ => bufs
  | none => bufs ++ [(k, ([], 0))]

def oa2Get (bufs : OA2Buffers) (k : GKey) : List String × Nat :=
  (lookupAssoc bufs k).getD ([], 0)

/-- Append `raw` (of encoded size `sz`) to the key's buffer, creating
the entry when absent. -/
def oa2Append (bufs : OA2Buffers) (k : GKey) (raw : String) (sz : Nat) :
    OA2Buffers :=
  match bufs with
  | [] => [(k, ([raw], sz))]
  | (k', p) :: rest =>
      if k' = k then (k', (p.1 ++ [raw], p.2 + sz)) :: rest
      else (k', p) :: oa2Append rest k raw sz

/-- `process_line` of `online_to_aliyun2.py` (lines 80-106), for a line
that parsed into `r`.  `limsB` is `size_limits_bytes` (already in
bytes).  A key with `max_size is None` is appended without any check;
a limited key is appended only while it fits (and the defaultdict read
creates the entry either way). -/
def oa2ProcessLine (lk : String → Option String) (limsB : List (GKey × Nat))
    (bufs : OA2Buffers) (raw : String) (r : Record) : OA2Buffers :=
  let cc2 := pyUpper (pyStrip r.country_code)
  let platform := pyLower (pyStrip r.platform)
  if platform = "android" ∨ platform = "ios" then
    let geo3 := country_2to3_lower lk cc2
    let k := (platform, geo3)
    let sz := raw.utf8ByteSize + 1
    match limLookup limsB k with
    | none => oa2Append bufs k raw sz
    | some maxSize =>
        let bufs1 := oa2Ensure bufs k
        if (oa2Get bufs1 k).2 + sz ≤ maxSize then oa2Append bufs1 k raw sz
        else bufs1
  else bufs

/-- Store a buffer under its key (`uploaders[key] = ...` followed by
in-place mutation of the shared object). -/
def setAssoc (bufs : List (GKey × SYBuf)) (k : GKey) (b : SYBuf) :
    List (GKey × SYBuf) :=
  match bufs with
  | [] => [(k, b)]
  | (k', v) :: rest =>
      if k' = k then (k', b) :: rest else (k', v) :: setAssoc rest k b

/-- Whole-pipeline state of `cos_aliyun_fileze_limit_sync.py`:
`uploaders` dict, the upload pool's queue and completed `put_object`
calls, and the `submit` counter. -/
structure SYPipe where
  lims : List (GKey × Nat)
  bufs : List (GKey × SYBuf)
  pending : List (String × List String)
  uploads : List (String × List String)
  submitted : Nat
  date_part : String
  hour_part : String
deriving DecidableEq

def SYPipe.init (lims : List (GKey × Nat)) (date_part hour_part : String) :
    SYPipe :=
  { lims := lims, bufs := [], pending := [], uploads := [],
    submitted := 0, date_part := date_part, hour_part := hour_part }

/-- `all(uploader.uploaded for uploader in uploaders.values())` — true
for an empty dict. -/
def SYPipe.allUploaded (p : SYPipe) : Bool :=
  p.bufs.all (fun kb => kb.2.uploaded)

/-- One line of `process_single_file` (lines 214-248): parse (a `none`
record is the caught parse failure), classify, `get_uploader` (created
with `mkLimitBytes (SIZE_LIMITS_MB.get(key))` on first use), transform,
write; every exception is swallowed by `except Exception: pass`. -/
def SYPipe.processLine (lk : String → Option String) (p : SYPipe)
    (item : String × Option Record) : SYPipe :=
  match item.2 with
  | none => p
  | some r =>
      match classifyCOS lk p.lims r with
      | none => p
      | some k =>
          let b0 := match lookupAssoc p.bufs k with
            | some b => b
            | none =>
                SYBuf.init (mkLimitBytes (limLookup p.lims k)) k.1 k.2
                  p.date_part p.hour_part
          let line := transform_line r k.2
          match b0.write1 line with
          | (b, none, _) => { p with bufs := setAssoc p.bufs k b }
          | (b, some c, _) =>
              { p with
                  bufs := setAssoc p.bufs k b
                  pending := p.pending ++ [(syKey k.1 k.2 p.date_part p.hour_part, c)]
                  submitted := p.submitted + 1 }

def SYPipe.processLines (lk : String → Option String) (p : SYPipe) :
    List (String × Option Record) → SYPipe
  | [] => p
  | it :: rest => SYPipe.processLines lk (p.processLine lk it) rest

/-- `process_single_file` (lines 204-252) with the early-exit check of
lines 205-208: `if all(uploader.uploaded for uploader in
uploaders.values()): return` before touching the file. -/
def SYPipe.processFile (lk : String → Option String) (p : SYPipe)
    (file : List (String × Option Record)) : SYPipe :=
  if p.allUploaded then p else p.processLines lk file

/-- `process_single_file` with the early-exit check omitted. -/
def SYPipe.processFileNoCheck (lk : String → Option String) (p : SYPipe)
    (file : List (String × Option Record)) : SYPipe :=
  p.processLines lk file

/-- The download pool working through the file list with the check in
place (one worker at a time; the counterexample needs no interleaving). -/
def SYPipe.runFiles (lk : String → Option String) (p : SYPipe) :
    List (List (String × Option Record)) → SYPipe
  | [] => p
  | f :: fs => SYPipe.runFiles lk (p.processFile lk f) fs

/-! ### Helper lemmas -/

theorem encodedSize_eq (line : String) : encodedSize line = line.utf8ByteSize + 1 := by
  cases line with
  | mk data =>
      show (String.mk data ++ "\n").utf8ByteSize = (String.mk data).utf8ByteSize + 1
      rw [show String.mk data ++ "\n" = String.mk (data ++ ['\n']) from rfl]
      simp [String.utf8ByteSize_mk, String.utf8Len_append]
      decide

theorem sumEncoded_append (ls : List String) (l : String) :
    sumEncoded (ls ++ [l]) = sumEncoded ls + encodedSize l := by
  simp [sumEncoded]

/-- `limitExceeded (some B) n = false` for a positive budget means `n ≤ B`. -/
theorem limitExceeded_false {B n : Nat} (hB : 0 < B)
    (h : limitExceeded (some B) n = false) : n ≤ B := by
  simp only [limitExceeded, if_neg (Nat.pos_iff_ne_zero.mp hB),
    decide_eq_false_iff_not, Nat.not_lt] at h
  exact h

theorem limitExceeded_of_le {B n : Nat} (h : n ≤ B) :
    limitExceeded (some B) n = false := by
  simp only [limitExceeded]
  split
  · rfl
  · simpa using Nat.not_lt.mpr h

/-- The buffer component of a state-level write is the buffer-level
write. -/
theorem SYState.write_buf (s : SYState) (line : String) :
    (s.write line).1.buf = (s.buf.write1 line).1 := by
  unfold SYState.write
  rcases h : s.buf.write1 line with ⟨b, c?, o⟩
  cases c? <;> simp

/-- A state-level write never touches `uploads`. -/
theorem SYState.write_uploads (s : SYState) (line : String) :
    (s.write line).1.uploads = s.uploads := by
  unfold SYState.write
  rcases h : s.buf.write1 line with ⟨b, c?, o⟩
  cases c? <;> simp

/-- One `write1` call: the line is appended exactly when the sink is
open, the buffer not uploaded, and the line fits; the size counter never
decreases; and a write is all-or-nothing on the line list. -/
theorem SYBuf.write1_step (b : SYBuf) (B : Nat) (hB : 0 < B)
    (hlim : b.limit_bytes = some B) (line : String) :
    (((b.write1 line).1.lines = b.lines ++ [line]) ↔
      (b.gz_closed = false ∧ b.uploaded = false ∧
        b.current_size + encodedSize line ≤ B)) ∧
    b.current_size ≤ (b.write1 line).1.current_size ∧
    ((b.write1 line).1.lines = b.lines ++ [line] ∨
      (b.write1 line).1.lines = b.lines) := by
  have hne : (b.lines = b.lines ++ [line]) → False := by
    intro h
    simpa using congrArg List.length h
  unfold SYBuf.write1
  rw [hlim]
  dsimp only
  split_ifs with h1 h2 h3 h4
  · exact ⟨⟨fun h => absurd h hne, fun h => by simp [h.2.1] at h1⟩,
      Nat.le_refl _, Or.inr rfl⟩
  · exact ⟨⟨fun h => absurd h hne,
      fun h => by simp [limitExceeded_of_le h.2.2] at h2⟩,
      Nat.le_refl _, Or.inr rfl⟩
  · exact ⟨⟨fun h => absurd h hne,
      fun h => by simp [limitExceeded_of_le h.2.2] at h2⟩,
      Nat.le_refl _, Or.inr rfl⟩
  · exact ⟨⟨fun h => absurd h hne, fun h => by simp [h.1] at h4⟩,
      Nat.le_refl _, Or.inr rfl⟩
  · exact ⟨iff_of_true rfl ⟨by simpa using h4, by simpa using h1,
      limitExceeded_false hB (by simpa using h2)⟩,
      Nat.le_add_right _ _, Or.inl rfl⟩

/-- `write1` never changes the configuration fields of a buffer. -/
theorem SYBuf.write1_fields (b : SYBuf) (line : String) :
    (b.write1 line).1.limit_bytes = b.limit_bytes ∧
    (b.write1 line).1.platform = b.platform ∧
    (b.write1 line).1.geo3 = b.geo3 ∧
    (b.write1 line).1.date_part = b.date_part ∧
    (b.write1 line).1.hour_part = b.hour_part := by
  unfold SYBuf.write1
  dsimp only
  split_ifs <;> simp

/-- `write1` preserves `current_size = sumEncoded lines` and the budget
bound. -/
theorem SYBuf.write1_size (b : SYBuf) (B : Nat) (line : String) (hB : 0 < B)
    (hlim : b.limit_bytes = some B)
    (hsum : b.current_size = sumEncoded b.lines)
    (hle : b.current_size ≤ B) :
    (b.write1 line).1.current_size = sumEncoded (b.write1 line).1.lines ∧
    (b.write1 line).1.current_size ≤ B := by
  unfold SYBuf.write1
  rw [hlim]
  dsimp only
  split_ifs with h1 h2 h3 h4
  · exact ⟨hsum, hle⟩
  · exact ⟨hsum, hle⟩
  · exact ⟨hsum, hle⟩
  · exact ⟨hsum, hle⟩
  · constructor
    · show b.current_size + encodedSize line = sumEncoded (b.lines ++ [line])
      rw [sumEncoded_append, hsum]
    · exact limitExceeded_false hB (by simpa using h2)

/-- Invariant of a threaded-variant state reachable from
`SYState.init (some B) p g dp hp`. -/
def SYInv (B : Nat) (p g dp hp : String) (s : SYState) : Prop :=
  s.buf.limit_bytes = some B ∧
  s.buf.current_size = sumEncoded s.buf.lines ∧
  s.buf.current_size ≤ B ∧
  s.buf.platform = p ∧ s.buf.geo3 = g ∧
  s.buf.date_part = dp ∧ s.buf.hour_part = hp ∧
  ∀ u ∈ s.uploads, u.1 = syKey p g dp hp

theorem syInv_init (B : Nat) (p g dp hp : String) :
    SYInv B p g dp hp (SYState.init (some B) p g dp hp) := by
  refine ⟨rfl, rfl, Nat.zero_le _, rfl, rfl, rfl, rfl, ?_⟩
  intro u hu
  simp [SYState.init] at hu

theorem syInv_step (B : Nat) (p g dp hp : String) (s : SYState) (e : SYEvent)
    (hB : 0 < B) (h : SYInv B p g dp hp s) :
    SYInv B p g dp hp (s.step e) := by
  obtain ⟨hlim, hsum, hle, hp1, hp2, hp3, hp4, hup⟩ := h
  cases e with
  | write l =>
      have hf := SYBuf.write1_fields s.buf l
      have hs := SYBuf.write1_size s.buf B l hB hlim hsum hle
      have hbuf := SYState.write_buf s l
      have huploads := SYState.write_uploads s l
      show SYInv B p g dp hp (s.write l).1
      refine ⟨?_, ?_, ?_, ?_, ?_, ?_, ?_, ?_⟩
      · rw [hbuf, hf.1, hlim]
      · rw [hbuf]; exact hs.1
      · rw [hbuf]; exact hs.2
      · rw [hbuf, hf.2.1, hp1]
      · rw [hbuf, hf.2.2.1, hp2]
      · rw [hbuf, hf.2.2.2.1, hp3]
      · rw [hbuf, hf.2.2.2.2, hp4]
      · rw [huploads]; exact hup
  | runUpload =>
      show SYInv B p g dp hp s.runUpload
      unfold SYState.runUpload
      rcases hpend : s.pending with _ | ⟨c, rest⟩
      · exact ⟨hlim, hsum, hle, hp1, hp2, hp3, hp4, hup⟩
      · refine ⟨hlim, hsum, hle, hp1, hp2, hp3, hp4, ?_⟩
        intro u hu
        simp only [List.mem_append, List.mem_singleton] at hu
        rcases hu with hu | hu
        · exact hup u hu
        · rw [hu, hp1, hp2, hp3, hp4]

theorem syInv_run (B : Nat) (p g dp hp : String) (s : SYState)
    (es : List SYEvent) (hB : 0 < B) (h : SYInv B p g dp hp s) :
    SYInv B p g dp hp (s.run es) := by
  induction es generalizing s with
  | nil => exact h
  | cons e es ih => exact ih _ (syInv_step B p g dp hp s e hB h)

/-- The drained (`shutdown(wait=True)`) upload list still only carries
the buffer's deterministic key. -/
theorem syInv_finish (B : Nat) (p g dp hp : String) (s : SYState)
    (h : SYInv B p g dp hp s) :
    ∀ u ∈ s.finish.uploads, u.1 = syKey p g dp hp := by
  obtain ⟨-, -, -, hp1, hp2, hp3, hp4, hup⟩ := h
  intro u hu
  simp only [SYState.finish, List.mem_append, List.mem_map] at hu
  rcases hu with hu | ⟨c, -, hc⟩
  · exact hup u hu
  · rw [← hc, hp1, hp2, hp3, hp4]

/-! ### Concrete fixtures used by witnesses and counterexamples -/

/-- A concrete country lookup standing in for `pycountry`: resolves US
and GB, nothing else (in particular not the reserved code UK). -/
def lkC : String → Option String := fun c =>
  if c = "US" then some "USA" else if c = "GB" then some "GBR" else none

/-- A concrete android/US record with empty free-text fields. -/
def recUS : Record :=
  { country_code := "US", platform := "android", display_manager := "",
    deviceId := "", brand := "", user_agent := "", ip := "", language := "",
    timestamp := "", os_version := "", app_id := "", model := "",
    network_type := "" }

/-! ### C1 -/

/-- C1: for the bounded buffer (threaded variant, the same `write`
acceptance test as the streaming variant), after any schedule of writes
and upload completions from a fresh buffer with budget `B > 0`:
`current_size` is the sum of the appended lines' encoded byte lengths
(`utf8 length + 1` for the newline) and never exceeds `B`; a further
write appends its line exactly when no flush has been triggered (sink
still open, not uploaded) and `current_size + byteLength(line) + 1 ≤ B`;
a write never decreases `current_size` and is all-or-nothing on the
line list (an overflowing write is dropped whole). -/
theorem C1_bounded_buffer (B : Nat) (p g dp hp : String)
    (events : List SYEvent) (hB : 0 < B) :
    let s := SYState.run (SYState.init (some B) p g dp hp) events
    s.buf.current_size = sumEncoded s.buf.lines ∧
    s.buf.current_size ≤ B ∧
    ∀ line : String,
      (((s.write line).1.buf.lines = s.buf.lines ++ [line]) ↔
        (s.buf.gz_closed = false ∧ s.buf.uploaded = false ∧
          s.buf.current_size + encodedSize line ≤ B)) ∧
      s.buf.current_size ≤ (s.write line).1.buf.current_size ∧
      ((s.write line).1.buf.lines = s.buf.lines ++ [line] ∨
        (s.write line).1.buf.lines = s.buf.lines) := by
  intro s
  obtain ⟨hlim, hsum, hle, -, -, -, -, -⟩ :=
    syInv_run B p g dp hp _ events hB (syInv_init B p g dp hp)
  refine ⟨hsum, hle, fun line => ?_⟩
  have hstep := SYBuf.write1_step s.buf B hB hlim line
  rw [SYState.write_buf]
  exact hstep

/-- C1 witness, at budget 10 after one accepted write. -/
theorem C1_bounded_buffer_witness :
    0 < 10 ∧
    (let s := SYState.run (SYState.init (some 10) "android" "usa" "2025-10-11" "23")
        [SYEvent.write "ab"]
     s.buf.current_size = sumEncoded s.buf.lines ∧
     s.buf.current_size ≤ 10 ∧
     ∀ line : String,
       (((s.write line).1.buf.lines = s.buf.lines ++ [line]) ↔
         (s.buf.gz_closed = false ∧ s.buf.uploaded = false ∧
           s.buf.current_size + encodedSize line ≤ 10)) ∧
       s.buf.current_size ≤ (s.write line).1.buf.current_size ∧
       ((s.write line).1.buf.lines = s.buf.lines ++ [line] ∨
         (s.write line).1.buf.lines = s.buf.lines)) :=
  ⟨by decide,
   C1_bounded_buffer 10 "android" "usa" "2025-10-11" "23"
     [SYEvent.write "ab"] (by decide)⟩

/-! ### C2 -/

/-- C2: the code at the failing schedule.  Budget 2 bytes; writes
`"a"`, `"b"`, `"c"` with no upload-pool activity in between: the first
write is accepted, the second overflows and submits the upload handoff,
the third overflows again and — `uploaded` being set only by the
asynchronous `_do_upload`, which has not run — submits a second handoff
of the same payload.  `submitted = 2` contradicts the claimed at-most
one submission per buffer. -/
theorem C2_double_submit_eval :
    (SYState.run (SYState.init (some 2) "android" "usa" "2025-10-11" "23")
      [SYEvent.write "a", SYEvent.write "b", SYEvent.write "c"]).submitted = 2 ∧
    (SYState.run (SYState.init (some 2) "android" "usa" "2025-10-11" "23")
      [SYEvent.write "a", SYEvent.write "b", SYEvent.write "c"]).pending =
      [["a"], ["a"]] ∧
    ¬ ((SYState.run (SYState.init (some 2) "android" "usa" "2025-10-11" "23")
      [SYEvent.write "a", SYEvent.write "b", SYEvent.write "c"]).submitted ≤ 1) := by
  refine ⟨by decide, by decide, by decide⟩

/-! ### C10 -/

/-- C10: in the threaded variant, while the sink is closed by a budget
overflow but the asynchronous upload has not yet set `uploaded`, a write
whose size fits the budget is neither accepted nor silently discarded:
`gz_file.write` raises on the closed sink, the buffer is unchanged, and
the caller's per-line handler swallows the exception and continues with
the remaining lines. -/
theorem C10_flushing_window (s : SYState) (line : String) (rest : List String)
    (h1 : s.buf.gz_closed = true) (h2 : s.buf.uploaded = false)
    (h3 : limitExceeded s.buf.limit_bytes
      (s.buf.current_size + encodedSize line) = false) :
    (s.write line).2 = WriteOutcome.error ∧
    (s.write line).1 = s ∧
    writeAll s (line :: rest) = writeAll s rest := by
  have hw : s.buf.write1 line = (s.buf, none, WriteOutcome.error) := by
    unfold SYBuf.write1
    dsimp only
    rw [h1, h2, h3]
    simp
  have hwrite : s.write line = (s, WriteOutcome.error) := by
    unfold SYState.write
    rw [hw]
  refine ⟨by rw [hwrite], by rw [hwrite], ?_⟩
  show writeAll (s.write line).1 rest = writeAll s rest
  rw [hwrite]

/-- C10 witness: budget 10, one accepted write, one overflow (submits
and closes the sink), then the 2-byte line `"b"` fits but errors. -/
theorem C10_flushing_window_witness :
    (let s := SYState.run (SYState.init (some 10) "android" "usa" "2025-10-11" "23")
        [SYEvent.write "a", SYEvent.write "0123456789"]
     s.buf.gz_closed = true ∧ s.buf.uploaded = false ∧
     limitExceeded s.buf.limit_bytes (s.buf.current_size + encodedSize "b") = false ∧
     (s.write "b").2 = WriteOutcome.error ∧
     (s.write "b").1 = s ∧
     writeAll s ("b" :: ["c"]) = writeAll s ["c"]) := by
  refine ⟨by decide, by decide, by decide, ?_⟩
  have h := C10_flushing_window
    (SYState.run (SYState.init (some 10) "android" "usa" "2025-10-11" "23")
      [SYEvent.write "a", SYEvent.write "0123456789"])
    "b" ["c"] (by decide) (by decide) (by decide)
  exact ⟨h.1, h.2.1, h.2.2⟩

/-! ### Streaming-variant (`FL`) lemmas -/

/-- Bookkeeping invariant of an `FLBuf` reachable from `FLBuf.init`:
the byte buffer and the gzip sink are closed together, and `put_object`
is attempted only out of the open state — hence at most once ever. -/
def FLOk (b : FLBuf) : Prop :=
  b.buf_closed = b.gz_closed ∧
  (b.buf_closed = false → b.put_attempts = []) ∧
  b.put_attempts.length ≤ 1

theorem flOk_init (lim : Option Nat) (p g dp hp : String) :
    FLOk (FLBuf.init lim p g dp hp) :=
  ⟨rfl, fun _ => rfl, by simp [FLBuf.init]⟩

theorem flOk_flush (ok : Bool) (b : FLBuf) (h : FLOk b) : FLOk (b.flush ok).1 := by
  obtain ⟨h1, h2, h3⟩ := h
  unfold FLBuf.flush
  dsimp only
  split_ifs with g1 g2 g3
  · exact ⟨h1, h2, h3⟩
  · exact ⟨by rw [g2], fun hf => by rw [hf] at g2; exact absurd g2 (by simp), h3⟩
  · refine ⟨rfl, fun hf => by simp at hf, ?_⟩
    have : b.put_attempts = [] := h2 (by simpa using g2)
    simp [this]
  · refine ⟨rfl, fun hf => by simp at hf, ?_⟩
    have : b.put_attempts = [] := h2 (by simpa using g2)
    simp [this]

theorem flOk_write (ok : Bool) (b : FLBuf) (line : String) (h : FLOk b) :
    FLOk (b.write ok line).1 := by
  unfold FLBuf.write
  dsimp only
  split_ifs with g1 g2 g3
  · exact h
  · exact flOk_flush ok b h
  · exact h
  · exact ⟨h.1, h.2.1, h.2.2⟩

theorem flOk_run (b : FLBuf) (es : List FLEvent) (h : FLOk b) :
    FLOk (b.runFL es) := by
  induction es generalizing b with
  | nil => exact h
  | cons e es ih =>
      refine ih _ ?_
      cases e with
      | write ok l => exact flOk_write ok b l h
      | flushEv ok => exact flOk_flush ok b h

/-- The skip guard of `_flush`: an empty or already-uploaded buffer is
left untouched with result `Skipped`. -/
theorem FLBuf.flush_skipped (ok : Bool) (b : FLBuf)
    (h : b.line_count = 0 ∨ b.uploaded = true) :
    b.flush ok = (b, FlushResult.skipped) := by
  unfold FLBuf.flush
  rw [if_pos h]

/-- A flush of an already-uploaded or already-closed buffer performs
no `put_object` and cannot return `Uploaded`. -/
theorem FLBuf.flush_noput (ok : Bool) (b : FLBuf)
    (h : b.uploaded = true ∨ b.buf_closed = true) :
    (b.flush ok).2 ≠ FlushResult.uploaded ∧
    (b.flush ok).1.put_attempts = b.put_attempts := by
  unfold FLBuf.flush
  dsimp only
  rcases h with h | h
  · rw [if_pos (Or.inr h)]
    exact ⟨by simp, rfl⟩
  · by_cases g1 : b.line_count = 0 ∨ b.uploaded = true
    · rw [if_pos g1]
      exact ⟨by simp, rfl⟩
    · rw [if_neg g1, if_pos h]
      exact ⟨by simp, rfl⟩

/-- A flush out of the non-empty, non-uploaded state keeps the line
count and leaves the buffer uploaded or closed. -/
theorem FLBuf.flush_state (ok : Bool) (b : FLBuf)
    (hlc : b.line_count ≠ 0) (hup : b.uploaded = false) :
    (b.flush ok).1.line_count = b.line_count ∧
    ((b.flush ok).1.uploaded = true ∨ (b.flush ok).1.buf_closed = true) := by
  unfold FLBuf.flush
  dsimp only
  rw [if_neg (by rintro (h | h); exacts [hlc h, by simp [h] at hup])]
  by_cases g2 : b.buf_closed = true
  · rw [if_pos g2]
    exact ⟨rfl, Or.inr g2⟩
  · rw [if_neg g2]
    by_cases g3 : ok = true
    · rw [if_pos g3]
      exact ⟨rfl, Or.inl rfl⟩
    · rw [if_neg g3]
      exact ⟨rfl, Or.inr rfl⟩

/-- Two consecutive `_flush` calls: the second never performs the
upload handoff — it cannot return `Uploaded` and adds no `put_object`
attempt — whatever state the first left. -/
theorem FLBuf.flush_flush (b : FLBuf) (ok1 ok2 : Bool) :
    ((b.flush ok1).1.flush ok2).2 ≠ FlushResult.uploaded ∧
    ((b.flush ok1).1.flush ok2).1.put_attempts = (b.flush ok1).1.put_attempts := by
  by_cases g1 : b.line_count = 0 ∨ b.uploaded = true
  · rw [FLBuf.flush_skipped ok1 b g1]
    dsimp only
    rw [FLBuf.flush_skipped ok2 b g1]
    exact ⟨by simp, rfl⟩
  · push_neg at g1
    obtain ⟨hlc, hup⟩ := g1
    simp only [Bool.not_eq_true] at hup
    obtain ⟨-, hcase⟩ := FLBuf.flush_state ok1 b hlc hup
    rcases hcase with h | h
    · exact FLBuf.flush_noput ok2 _ (Or.inl h)
    · exact FLBuf.flush_noput ok2 _ (Or.inr h)

/-- A flush of an open, non-empty, not-yet-uploaded buffer with a
successful upload marks it uploaded and performs exactly one
`put_object` under the buffer's deterministic key. -/
theorem FLBuf.flush_open (b : FLBuf)
    (h2 : b.buf_closed = false) (h3 : b.uploaded = false)
    (h4 : b.line_count ≠ 0) :
    (b.flush true).1.uploaded = true ∧
    (b.flush true).1.put_attempts = b.put_attempts ++
      [(syKey b.platform b.geo3 b.date_part b.hour_part, b.lines)] := by
  unfold FLBuf.flush
  dsimp only
  rw [if_neg (by rintro (h | h); exacts [h4 h, by simp [h] at h3])]
  rw [if_neg (by simp [h2])]
  rw [if_pos rfl]
  exact ⟨rfl, rfl⟩

/-- In a write-only schedule of the threaded variant nothing is
uploaded, and the pool queue is empty unless something was submitted. -/
theorem syWriteOnly_aux (ls : List String) (s : SYState)
    (h : s.uploads = [] ∧ (s.pending = [] ∨ s.submitted ≠ 0)) :
    (SYState.run s (ls.map SYEvent.write)).uploads = [] ∧
    ((SYState.run s (ls.map SYEvent.write)).pending = [] ∨
      (SYState.run s (ls.map SYEvent.write)).submitted ≠ 0) := by
  induction ls generalizing s with
  | nil => exact h
  | cons l ls ih =>
      show (SYState.run ((s.write l).1) (ls.map SYEvent.write)).uploads = [] ∧ _
      apply ih
      constructor
      · rw [SYState.write_uploads]
        exact h.1
      · unfold SYState.write
        rcases hw : s.buf.write1 l with ⟨b, c?, o⟩
        cases c?
        · dsimp only
          exact h.2
        · dsimp only
          exact Or.inr (by simp)

theorem SYState.finish_uploads_nil (s : SYState)
    (h1 : s.uploads = []) (h2 : s.pending = []) : s.finish.uploads = [] := by
  simp [SYState.finish, h1, h2]

/-! ### C3 -/

/-- C3 counterexample: streaming variant, one accepted line, then a
flush whose upload fails (`ok = false`).  The second flush call returns
`Failed` (its `seek` on the closed byte buffer raises and is caught),
not `Skipped` as the claim states — though the handoff did happen only
once. -/
theorem C3_counterexample :
    ((((FLBuf.init (some 100) "android" "usa" "2025-10-11" "23").write
        false "a").1.flush false).1.flush false).2 = FlushResult.failed ∧
    FlushResult.failed ≠ FlushResult.skipped ∧
    ((((FLBuf.init (some 100) "android" "usa" "2025-10-11" "23").write
        false "a").1.flush false).1.flush false).1.put_attempts.length = 1 :=
  ⟨by decide, by decide, by decide⟩

/-- C3 (amended): in the streaming variant, the `put_object` handoff
happens at most once over any event sequence from a fresh buffer (even
after the extra flush `ok` call); a flush of an empty or
already-uploaded buffer is a no-op returning `Skipped`; and a second
flush call never performs the handoff — but after a failed first upload
it returns `Failed`, not `Skipped` (and in the threaded variant repeated
overflow submits can each re-submit before the asynchronous upload
runs, see C2). -/
theorem C3_flush_amended (lim : Option Nat) (p g dp hp : String)
    (events : List FLEvent) (b c : FLBuf) (ok ok1 ok2 : Bool)
    (hc : c.line_count = 0 ∨ c.uploaded = true) :
    (FLBuf.runFL (FLBuf.init lim p g dp hp) events).put_attempts.length ≤ 1 ∧
    ((FLBuf.runFL (FLBuf.init lim p g dp hp) events).flush ok).1.put_attempts.length ≤ 1 ∧
    c.flush ok = (c, FlushResult.skipped) ∧
    ((b.flush ok1).1.flush ok2).2 ≠ FlushResult.uploaded ∧
    ((b.flush ok1).1.flush ok2).1.put_attempts = (b.flush ok1).1.put_attempts := by
  have hrun := flOk_run (FLBuf.init lim p g dp hp) events (flOk_init lim p g dp hp)
  exact ⟨hrun.2.2, (flOk_flush ok _ hrun).2.2, FLBuf.flush_skipped ok c hc,
    (FLBuf.flush_flush b ok1 ok2).1, (FLBuf.flush_flush b ok1 ok2).2⟩

/-- C3 witness at concrete inputs (the `c` buffer is empty, so its
flush is the skipped no-op). -/
theorem C3_flush_amended_witness :
    ((FLBuf.init (some 100) "android" "usa" "d" "h").line_count = 0 ∨
      (FLBuf.init (some 100) "android" "usa" "d" "h").uploaded = true) ∧
    ((FLBuf.runFL (FLBuf.init (some 5) "android" "usa" "d" "h")
      [FLEvent.write true "a", FLEvent.flushEv true]).put_attempts.length ≤ 1 ∧
    ((FLBuf.runFL (FLBuf.init (some 5) "android" "usa" "d" "h")
      [FLEvent.write true "a", FLEvent.flushEv true]).flush true).1.put_attempts.length ≤ 1 ∧
    (FLBuf.init (some 100) "android" "usa" "d" "h").flush true =
      (FLBuf.init (some 100) "android" "usa" "d" "h", FlushResult.skipped) ∧
    (((FLBuf.init (some 7) "a" "b" "c" "d").flush false).1.flush true).2 ≠
      FlushResult.uploaded ∧
    (((FLBuf.init (some 7) "a" "b" "c" "d").flush false).1.flush true).1.put_attempts =
      ((FLBuf.init (some 7) "a" "b" "c" "d").flush false).1.put_attempts) :=
  ⟨by decide,
   C3_flush_amended (some 5) "android" "usa" "d" "h"
     [FLEvent.write true "a", FLEvent.flushEv true]
     (FLBuf.init (some 7) "a" "b" "c" "d")
     (FLBuf.init (some 100) "android" "usa" "d" "h")
     true false true (by decide)⟩

/-! ### C4 -/

/-- C4 counterexample: in the threaded variant a buffer accepts one
line, never overflows, and the run ends (`shutdown(wait=True)`): no
drain phase exists, so nothing is ever uploaded for it — against the
claim that every open buffer holding a line is uploaded before the run
finishes. -/
theorem C4_counterexample :
    (SYState.finish (SYState.run
      (SYState.init (some 100) "android" "usa" "2025-10-11" "23")
      [SYEvent.write "a"])).uploads = [] ∧
    (SYState.run (SYState.init (some 100) "android" "usa" "2025-10-11" "23")
      [SYEvent.write "a"]).buf.line_count = 1 ∧
    (SYState.run (SYState.init (some 100) "android" "usa" "2025-10-11" "23")
      [SYEvent.write "a"]).buf.uploaded = false :=
  ⟨by decide, by decide, by decide⟩

/-- C4 (amended): the end-of-run drain exists only in the streaming
variant — there `drainAll` flushes every registered buffer, and every
still-open buffer holding at least one line is uploaded by exactly one
`put_object` under its deterministic key (when the upload I/O succeeds);
the threaded variant has no drain phase: a buffer whose budget is never
exceeded (no submit happened) is never uploaded at all. -/
theorem C4_drain_amended (bufs : List FLBuf) (b : FLBuf)
    (lim : Option Nat) (p g dp hp : String) (lines : List String)
    (hmem : b ∈ bufs)
    (hopen : b.gz_closed = false ∧ b.buf_closed = false ∧
      b.uploaded = false ∧ b.line_count ≠ 0)
    (hsub : (SYState.run (SYState.init lim p g dp hp)
      (lines.map SYEvent.write)).submitted = 0) :
    (b.flush true).1.uploaded = true ∧
    (b.flush true).1.put_attempts = b.put_attempts ++
      [(syKey b.platform b.geo3 b.date_part b.hour_part, b.lines)] ∧
    (b.flush true).1 ∈ drainAll true bufs ∧
    (SYState.run (SYState.init lim p g dp hp)
      (lines.map SYEvent.write)).finish.uploads = [] := by
  obtain ⟨hgz, hbc, hup, hlc⟩ := hopen
  have hf := FLBuf.flush_open b hbc hup hlc
  have haux := syWriteOnly_aux lines (SYState.init lim p g dp hp)
    ⟨rfl, Or.inl rfl⟩
  have hpend : (SYState.run (SYState.init lim p g dp hp)
      (lines.map SYEvent.write)).pending = [] := by
    rcases haux.2 with h | h
    · exact h
    · exact absurd hsub h
  exact ⟨hf.1, hf.2, List.mem_map_of_mem _ hmem,
    SYState.finish_uploads_nil _ haux.1 hpend⟩

/-- A concrete one-line open streaming buffer. -/
def flOneLine : FLBuf :=
  ((FLBuf.init (some 100) "android" "usa" "d" "h").write true "a").1

/-- C4 witness: a one-line open buffer in a one-element registry, and a
one-line write-only threaded run. -/
theorem C4_drain_amended_witness :
    flOneLine ∈ [flOneLine] ∧
    (flOneLine.gz_closed = false ∧ flOneLine.buf_closed = false ∧
      flOneLine.uploaded = false ∧ flOneLine.line_count ≠ 0) ∧
    (SYState.run (SYState.init (some 100) "android" "usa" "d" "h")
      (["a"].map SYEvent.write)).submitted = 0 ∧
    ((flOneLine.flush true).1.uploaded = true ∧
      (flOneLine.flush true).1.put_attempts = flOneLine.put_attempts ++
        [(syKey flOneLine.platform flOneLine.geo3 flOneLine.date_part
          flOneLine.hour_part, flOneLine.lines)] ∧
      (flOneLine.flush true).1 ∈ drainAll true [flOneLine] ∧
      (SYState.run (SYState.init (some 100) "android" "usa" "d" "h")
        (["a"].map SYEvent.write)).finish.uploads = []) :=
  ⟨by decide, by decide, by decide,
   C4_drain_amended [flOneLine] flOneLine (some 100) "android" "usa" "d" "h"
     ["a"] (by decide) (by decide) (by decide)⟩

/-! ### Batch-variant (`oa`) lemmas -/

/-- The lines `online_to_aliyun.py` holds for a key. -/
def groupLines (gs : List (GKey × List String)) (k : GKey) : List String :=
  (lookupAssoc gs k).getD []

theorem updateAssoc_lines (gs : List (GKey × List String)) (k' : GKey)
    (raw : String) (k : GKey) (l : String)
    (h : l ∈ groupLines (updateAssoc gs k' raw) k) :
    l ∈ groupLines gs k ∨ l = raw := by
  induction gs with
  | nil =>
      simp only [updateAssoc, groupLines, lookupAssoc] at h
      by_cases hk : k' = k
      · rw [if_pos hk] at h
        simp only [Option.getD_some] at h
        exact Or.inr (by simpa using h)
      · rw [if_neg hk] at h
        simp only [Option.getD_none] at h
        exact absurd h (List.not_mem_nil l)
  | cons p rest ih =>
      rcases p with ⟨a, v⟩
      simp only [updateAssoc] at h
      by_cases ha : a = k'
      · rw [if_pos ha] at h
        by_cases hk : a = k
        · simp only [groupLines, lookupAssoc, if_pos hk, Option.getD_some] at h ⊢
          rcases List.mem_append.mp h with h1 | h1
          · exact Or.inl h1
          · exact Or.inr (by simpa using h1)
        · simp only [groupLines, lookupAssoc, if_neg hk] at h ⊢
          exact Or.inl h
      · rw [if_neg ha] at h
        by_cases hk : a = k
        · simp only [groupLines, lookupAssoc, if_pos hk, Option.getD_some] at h ⊢
          exact Or.inl h
        · simp only [groupLines, lookupAssoc, if_neg hk] at h ⊢
          exact ih h

theorem oaGroupFrom_lines (lk : String → Option String)
    (inputs : List (String × Option Record))
    (gs : List (GKey × List String)) (k : GKey) (l : String)
    (h : l ∈ groupLines (oaGroupFrom lk inputs gs) k) :
    l ∈ groupLines gs k ∨ l ∈ inputs.map Prod.fst := by
  induction inputs generalizing gs with
  | nil => exact Or.inl h
  | cons it rest ih =>
      rcases it with ⟨raw, r?⟩
      cases r? with
      | none =>
          simp only [oaGroupFrom] at h
          rcases ih gs h with h1 | h1
          · exact Or.inl h1
          · exact Or.inr (by simpa using Or.inr h1)
      | some r =>
          simp only [oaGroupFrom] at h
          cases hcl : classifyOA lk r with
          | none =>
              rw [hcl] at h
              rcases ih gs h with h1 | h1
              · exact Or.inl h1
              · exact Or.inr (by simpa using Or.inr h1)
          | some k2 =>
              rw [hcl] at h
              rcases ih (updateAssoc gs k2 raw) h with h1 | h1
              · rcases updateAssoc_lines gs k2 raw k l h1 with h2 | h2
                · exact Or.inl h2
                · exact Or.inr (by simp [h2])
              · exact Or.inr (by simpa using Or.inr h1)

theorem oaTruncate_mem (maxB : Nat) (cur : Nat) (ls : List String)
    (l : String) (h : l ∈ oaTruncate maxB cur ls) : l ∈ ls := by
  induction ls generalizing cur with
  | nil => exact absurd (by rwa [oaTruncate] at h) (List.not_mem_nil l)
  | cons x ls ih =>
      unfold oaTruncate at h
      dsimp only at h
      split_ifs at h with hc
      · exact absurd h (List.not_mem_nil l)
      · rcases List.mem_cons.mp h with h1 | h1
        · exact h1 ▸ List.mem_cons_self x ls
        · exact List.mem_cons_of_mem x (ih _ h1)

theorem oaSelect_mem (limsMB : List (GKey × Nat)) (k : GKey)
    (ls : List String) (l : String) (h : l ∈ oaSelect limsMB k ls) :
    l ∈ ls := by
  unfold oaSelect at h
  cases hl : limLookup limsMB k with
  | none => rw [hl] at h; exact h
  | some mb => rw [hl] at h; exact oaTruncate_mem _ _ _ _ h

/-- Every line a batch-variant group (hence an uploaded payload) holds
is one of the raw input lines. -/
theorem oaGroup_lines_from_inputs (lk : String → Option String)
    (inputs : List (String × Option Record)) (limsMB : List (GKey × Nat))
    (k : GKey) (l : String)
    (h : l ∈ oaSelect limsMB k (groupLines (oaGroup lk inputs) k)) :
    l ∈ inputs.map Prod.fst := by
  have h1 := oaSelect_mem limsMB k _ l h
  rcases oaGroupFrom_lines lk inputs [] k l h1 with h2 | h2
  · simp only [groupLines, lookupAssoc, Option.getD_none] at h2
    exact absurd h2 (List.not_mem_nil l)
  · exact h2

/-- Folding the `"@".join` step over one more field keeps the
accumulator as a prefix, separator included. -/
theorem pyJoin_foldl_prefix (sep : String) (fs : List String) (a f : String) :
    ∃ t, List.foldl (fun acc g => acc ++ sep ++ g) a (f :: fs) =
      a ++ sep ++ t := by
  induction fs generalizing a f with
  | nil => exact ⟨f, rfl⟩
  | cons f2 fs ih =>
      obtain ⟨t, ht⟩ := ih (a ++ sep ++ f) f2
      refine ⟨f ++ sep ++ t, ?_⟩
      rw [List.foldl_cons]
      rw [ht]
      simp [String.append_assoc]

/-- For an android record routed to `usa`, the serialized line starts
with `USA@2@`. -/
theorem transform_line_android_prefix (r : Record) (ha : r.platform = "android") :
    ∃ t, transform_line r "usa" = "USA@2@" ++ t := by
  obtain ⟨t, ht⟩ := pyJoin_foldl_prefix "@"
    [r.deviceId, r.brand, r.user_agent, r.ip, r.language, r.timestamp,
     r.os_version, r.app_id, r.model, r.network_type]
    (pyUpper "usa" ++ "@" ++ toString (platformCode r.platform))
    r.display_manager
  refine ⟨t, ?_⟩
  show List.foldl (fun acc g => acc ++ "@" ++ g) (pyUpper "usa")
    [toString (platformCode r.platform), r.display_manager, r.deviceId,
     r.brand, r.user_agent, r.ip, r.language, r.timestamp, r.os_version,
     r.app_id, r.model, r.network_type] = "USA@2@" ++ t
  rw [List.foldl_cons]
  rw [ht, ha]
  rw [show (pyUpper "usa" ++ "@" ++ toString (platformCode "android")) ++ "@" =
    "USA@2@" from by decide]

/-! ### C5 -/

/-- C5 counterexample: an android record with unresolvable country
`"ZZ"`.  `online_to_aliyun2.py` creates a buffer for `(android, xxx)`
and keeps the raw line (no entry in the byte-limit table means
unlimited, not dropped); `online_to_aliyun.py` uploads an object for
that key containing the record. -/
theorem C5_counterexample :
    oa2ProcessLine lkC [(("android", "usa"), 52428800)] [] "raw"
      { recUS with country_code := "ZZ" } =
      [(("android", "xxx"), (["raw"], 4))] ∧
    oaUploads [(("android", "usa"), 40)] "2025-10-11" "23"
      (oaGroup lkC [("raw", some { recUS with country_code := "ZZ" })]) =
      [("tracking-collect-data-test/track/2025-10-11/23/android.xxx.log.gz",
        "raw")] :=
  ⟨by decide, by decide⟩

/-- C5 (amended): a record whose platform is neither android nor ios is
dropped in every variant (no classification, no buffer).  In the two COS
streaming variants an unresolvable country (`geo3 = "xxx"`) or a key
missing from (or zero in) `SIZE_LIMITS_MB` is also dropped.  But in
`online_to_aliyun.py` / `online_to_aliyun2.py` an unresolvable country
classifies to `(platform, "xxx")`, and a key absent from the table keeps
all its lines (uploaded with no size cap). -/
theorem C5_classification_amended
    (lk : String → Option String) (limsMB limsB : List (GKey × Nat))
    (bufs : OA2Buffers) (raw : String) (r1 r2 r3 r4 : Record)
    (k : GKey) (ls : List String)
    (h1 : ¬ (pyLower (pyStrip r1.platform) = "android" ∨
      pyLower (pyStrip r1.platform) = "ios"))
    (h2 : country_2to3_lower lk (normCC r2.country_code) = "xxx")
    (h4 : pyFalsyLimit (limLookup limsMB (pyLower (pyStrip r4.platform),
      country_2to3_lower lk (normCC r4.country_code))) = true)
    (h3p : pyLower (pyStrip r3.platform) = "android" ∨
      pyLower (pyStrip r3.platform) = "ios")
    (h3c : lk (pyUpper (pyStrip r3.country_code)) = none)
    (h5 : limLookup limsMB k = none) :
    classifyCOS lk limsMB r1 = none ∧
    classifyOA lk r1 = none ∧
    oa2ProcessLine lk limsB bufs raw r1 = bufs ∧
    classifyCOS lk limsMB r2 = none ∧
    classifyCOS lk limsMB r4 = none ∧
    classifyOA lk r3 = some (pyLower (pyStrip r3.platform), "xxx") ∧
    oaSelect limsMB k ls = ls := by
  refine ⟨?_, ?_, ?_, ?_, ?_, ?_, ?_⟩
  · simp only [classifyCOS]
    rw [if_neg h1]
  · simp only [classifyOA]
    rw [if_neg h1]
  · simp only [oa2ProcessLine]
    rw [if_neg h1]
  · simp [classifyCOS, h2]
  · simp only [classifyCOS]
    split_ifs
    · rfl
    · rfl
    · rfl
  · simp only [classifyOA]
    rw [if_pos h3p]
    simp [country_2to3_lower, h3c]
  · simp [oaSelect, h5]

/-- C5 witness: `"windows"` platform, `"ZZ"` country, an ios/US key
missing from an android-only table. -/
theorem C5_classification_amended_witness :
    (¬ (pyLower (pyStrip ({ recUS with platform := "windows" } : Record).platform) = "android" ∨
      pyLower (pyStrip ({ recUS with platform := "windows" } : Record).platform) = "ios")) ∧
    (classifyCOS lkC [(("android", "usa"), 40)] { recUS with platform := "windows" } = none ∧
    classifyOA lkC { recUS with platform := "windows" } = none ∧
    oa2ProcessLine lkC [(("android", "usa"), 52428800)] [] "x"
      { recUS with platform := "windows" } = [] ∧
    classifyCOS lkC [(("android", "usa"), 40)] { recUS with country_code := "ZZ" } = none ∧
    classifyCOS lkC [(("android", "usa"), 40)] { recUS with platform := "ios" } = none ∧
    classifyOA lkC { recUS with country_code := "ZZ" } =
      some (pyLower (pyStrip ({ recUS with country_code := "ZZ" } : Record).platform), "xxx") ∧
    oaSelect [(("android", "usa"), 40)] ("ios", "usa") ["x", "y"] = ["x", "y"]) :=
  ⟨by decide,
   C5_classification_amended lkC [(("android", "usa"), 40)]
     [(("android", "usa"), 52428800)] [] "x"
     { recUS with platform := "windows" } { recUS with country_code := "ZZ" }
     { recUS with country_code := "ZZ" } { recUS with platform := "ios" }
     ("ios", "usa") ["x", "y"]
     (by decide) (by decide) (by decide) (by decide) (by decide) (by decide)⟩

/-! ### C6 -/

/-- C6 counterexample: in `online_to_aliyun.py` there is no UK→GB
rewrite, so with the real lookup (which resolves GB but not the
exceptionally reserved code UK) a UK record groups under
`(android, xxx)` while a GB record groups under `(android, gbr)`. -/
theorem C6_counterexample :
    classifyOA lkC { recUS with country_code := "UK" } =
      some ("android", "xxx") ∧
    classifyOA lkC { recUS with country_code := "GB" } =
      some ("android", "gbr") ∧
    classifyOA lkC { recUS with country_code := "UK" } ≠
      classifyOA lkC { recUS with country_code := "GB" } ∧
    lkC "GB" = some "GBR" ∧ lkC "UK" = none :=
  ⟨by decide, by decide, by decide, by decide, by decide⟩

/-- C6 (amended): the UK→GB rewrite exists only in the two COS
streaming variants, whose classification treats `country_code = "UK"`
exactly like `"GB"` for every lookup table and record; the batch
variants look the literal code `"UK"` up unrewritten. -/
theorem C6_uk_amended (lk : String → Option String)
    (lims : List (GKey × Nat)) (r : Record)
    (hv : pyLower (pyStrip r.platform) = "android" ∨
      pyLower (pyStrip r.platform) = "ios") :
    classifyCOS lk lims { r with country_code := "UK" } =
      classifyCOS lk lims { r with country_code := "GB" } ∧
    classifyOA lk { r with country_code := "UK" } =
      some (pyLower (pyStrip r.platform), country_2to3_lower lk "UK") := by
  constructor
  · simp only [classifyCOS]
    rw [show normCC "UK" = normCC "GB" from by decide]
  · simp only [classifyOA]
    rw [show pyUpper (pyStrip "UK") = "UK" from by decide]
    rw [if_pos hv]

/-- C6 witness at the android/US record. -/
theorem C6_uk_amended_witness :
    (pyLower (pyStrip recUS.platform) = "android" ∨
      pyLower (pyStrip recUS.platform) = "ios") ∧
    (classifyCOS lkC [(("android", "usa"), 40)] { recUS with country_code := "UK" } =
      classifyCOS lkC [(("android", "usa"), 40)] { recUS with country_code := "GB" } ∧
    classifyOA lkC { recUS with country_code := "UK" } =
      some (pyLower (pyStrip recUS.platform), country_2to3_lower lkC "UK")) :=
  ⟨by decide,
   C6_uk_amended lkC [(("android", "usa"), 40)] recUS (by decide)⟩

/-! ### C7 -/

/-- C7 counterexample: `online_to_aliyun.py` uploads the raw input
line `"x"` for an android/US record, not the `@`-joined serialization:
the payload line does not begin with `USA@2@`. -/
theorem C7_counterexample :
    oaUploads [(("android", "usa"), 40)] "2025-10-11" "23"
      (oaGroup lkC [("x", some recUS)]) =
      [("tracking-collect-data-test/track/2025-10-11/23/android.usa.log.gz",
        "x")] ∧
    strStartsWith "x" "USA@2@" = false ∧
    "x" ≠ transform_line recUS "usa" :=
  ⟨by decide, by decide, by decide⟩

/-- C7 (amended): in the two COS streaming variants `transform_line`
emits exactly the `@`-joined thirteen-field line with platform code
2/1/0, and for an android record routed to `usa` the line begins
`USA@2@`; in `online_to_aliyun.py` / `online_to_aliyun2.py` every
uploaded payload line is one of the raw input lines, untransformed. -/
theorem C7_serialization_amended (r rp : Record) (geo3 p0 : String)
    (lk : String → Option String) (limsMB : List (GKey × Nat))
    (inputs : List (String × Option Record)) (k : GKey) (l : String)
    (ha : rp.platform = "android")
    (h0 : ¬ p0 = "android" ∧ ¬ p0 = "ios")
    (hl : l ∈ oaSelect limsMB k (groupLines (oaGroup lk inputs) k)) :
    transform_line r geo3 =
      pyUpper geo3 ++ "@" ++ toString (platformCode r.platform) ++ "@" ++
      r.display_manager ++ "@" ++ r.deviceId ++ "@" ++ r.brand ++ "@" ++
      r.user_agent ++ "@" ++ r.ip ++ "@" ++ r.language ++ "@" ++
      r.timestamp ++ "@" ++ r.os_version ++ "@" ++ r.app_id ++ "@" ++
      r.model ++ "@" ++ r.network_type ∧
    platformCode "android" = 2 ∧ platformCode "ios" = 1 ∧
    platformCode p0 = 0 ∧
    (∃ t, transform_line rp "usa" = "USA@2@" ++ t) ∧
    l ∈ inputs.map Prod.fst := by
  refine ⟨rfl, rfl, rfl, ?_, transform_line_android_prefix rp ha,
    oaGroup_lines_from_inputs lk inputs limsMB k l hl⟩
  simp [platformCode, h0.1, h0.2]

/-- C7 witness at the android/US record and a one-line input list. -/
theorem C7_serialization_amended_witness :
    recUS.platform = "android" ∧
    (¬ ("windows" : String) = "android" ∧ ¬ ("windows" : String) = "ios") ∧
    ("x" ∈ oaSelect [(("android", "usa"), 40)] ("android", "usa")
      (groupLines (oaGroup lkC [("x", some recUS)]) ("android", "usa"))) ∧
    (transform_line recUS "usa" =
      pyUpper "usa" ++ "@" ++ toString (platformCode recUS.platform) ++ "@" ++
      recUS.display_manager ++ "@" ++ recUS.deviceId ++ "@" ++ recUS.brand ++ "@" ++
      recUS.user_agent ++ "@" ++ recUS.ip ++ "@" ++ recUS.language ++ "@" ++
      recUS.timestamp ++ "@" ++ recUS.os_version ++ "@" ++ recUS.app_id ++ "@" ++
      recUS.model ++ "@" ++ recUS.network_type ∧
    platformCode "android" = 2 ∧ platformCode "ios" = 1 ∧
    platformCode "windows" = 0 ∧
    (∃ t, transform_line recUS "usa" = "USA@2@" ++ t) ∧
    "x" ∈ [("x", some recUS)].map Prod.fst) :=
  ⟨by decide, by decide, by decide,
   C7_serialization_amended recUS recUS "usa" "windows" lkC
     [(("android", "usa"), 40)] [("x", some recUS)] ("android", "usa") "x"
     (by decide) (by decide) (by decide)⟩

/-! ### C8 -/

/-- The UTC+8 listing hour is exactly 480 minutes after the UTC+0
output hour, for every clock reading. -/
theorem utc8_shift (nowUtc : Int) :
    utc8PrevHour nowUtc = utc0PrevHour nowUtc + 480 := by
  unfold utc8PrevHour utc0PrevHour truncHour
  omega

/-- C8 counterexample: the batch variants' destination key is prefixed
by the bucket name, so it is not of the claimed form `track/...` (the
streaming variants' key is). -/
theorem C8_counterexample :
    oaFullPath "2025-10-11" "23" "android" "usa" =
      "tracking-collect-data-test/track/2025-10-11/23/android.usa.log.gz" ∧
    strStartsWith (oaFullPath "2025-10-11" "23" "android" "usa") "track/" = false ∧
    strStartsWith (syKey "android" "usa" "2025-10-11" "23") "track/" = true :=
  ⟨by decide, by decide, by decide⟩

/-- C8 (amended): every upload of a threaded-variant buffer (pool runs
and final drain alike) is made under the single deterministic key
`track/<date>/<HH>/<platform>.<geo3>.log.gz` built from the buffer's
configuration — any two uploads of the same buffer share it; the batch
variants prefix the same key with the destination bucket name; and the
output date/hour is the previous hour in UTC+0, exactly 8 hours (480
minutes) earlier than the UTC+8 hour used for the source listing
prefixes. -/
theorem C8_destination_amended (nowUtc : Int) (B : Nat) (p g dp hp : String)
    (events : List SYEvent) (u v : String × List String)
    (bp bg bdp bhp : String) (hB : 0 < B)
    (hu : u ∈ (SYState.run (SYState.init (some B) p g dp hp) events).finish.uploads)
    (hv : v ∈ (SYState.run (SYState.init (some B) p g dp hp) events).finish.uploads) :
    utc8PrevHour nowUtc = utc0PrevHour nowUtc + 480 ∧
    u.1 = syKey p g dp hp ∧
    u.1 = v.1 ∧
    oaFullPath bdp bhp bp bg = ALI_BUCKET_NAME ++ "/" ++ syKey bp bg bdp bhp := by
  have hinv := syInv_run B p g dp hp _ events hB (syInv_init B p g dp hp)
  have hk := syInv_finish B p g dp hp _ hinv
  refine ⟨utc8_shift nowUtc, hk u hu, (hk u hu).trans (hk v hv).symm, ?_⟩
  unfold oaFullPath syKey
  apply String.ext
  simp [String.data_append, List.append_assoc]

/-- C8 witness: budget 2, one accepted write, one overflowing write
(submits), one pool run (uploads). -/
theorem C8_destination_amended_witness :
    0 < 2 ∧
    (("track/2025-10-11/23/android.usa.log.gz", ["a"]) ∈
      (SYState.run (SYState.init (some 2) "android" "usa" "2025-10-11" "23")
        [SYEvent.write "a", SYEvent.write "bb", SYEvent.runUpload]).finish.uploads) ∧
    (utc8PrevHour 123456 = utc0PrevHour 123456 + 480 ∧
    ("track/2025-10-11/23/android.usa.log.gz", ["a"]).1 =
      syKey "android" "usa" "2025-10-11" "23" ∧
    ("track/2025-10-11/23/android.usa.log.gz", ["a"]).1 =
      ("track/2025-10-11/23/android.usa.log.gz", ["a"]).1 ∧
    oaFullPath "2025-10-11" "23" "android" "usa" =
      ALI_BUCKET_NAME ++ "/" ++ syKey "android" "usa" "2025-10-11" "23") :=
  ⟨by decide, by decide,
   C8_destination_amended 123456 2 "android" "usa" "2025-10-11" "23"
     [SYEvent.write "a", SYEvent.write "bb", SYEvent.runUpload]
     ("track/2025-10-11/23/android.usa.log.gz", ["a"])
     ("track/2025-10-11/23/android.usa.log.gz", ["a"])
     "android" "usa" "2025-10-11" "23"
     (by decide) (by decide) (by decide)⟩

/-! ### C9 -/

/-- The check `all(uploader.uploaded for uploader in
uploaders.values())` is vacuously true on the empty registry, so from a
fresh start every file of every file list is skipped. -/
theorem syPipe_runFiles_skip (lk : String → Option String)
    (lims : List (GKey × Nat)) (dp hp : String)
    (files : List (List (String × Option Record))) :
    SYPipe.runFiles lk (SYPipe.init lims dp hp) files =
      SYPipe.init lims dp hp := by
  induction files with
  | nil => rfl
  | cons f fs ih =>
      show SYPipe.runFiles lk ((SYPipe.init lims dp hp).processFile lk f) fs = _
      rw [show (SYPipe.init lims dp hp).processFile lk f =
        SYPipe.init lims dp hp from by
          unfold SYPipe.processFile
          rw [if_pos (show (SYPipe.init lims dp hp).allUploaded = true from rfl)]]
      exact ih

/-- C9: the early-exit check as implemented.  With the check, a fresh
pipeline skips every file (the `all()` over the initially empty
uploader dict is vacuously true), ending with no buffers, no
submissions, no uploads, for any file list; without the check the same
single-record file is processed and registers a buffer.  The two runs
do not produce the same results. -/
theorem C9_earlyexit_eval (files : List (List (String × Option Record))) :
    SYPipe.runFiles lkC
      (SYPipe.init [(("android", "usa"), 40)] "2025-10-11" "23") files =
      SYPipe.init [(("android", "usa"), 40)] "2025-10-11" "23" ∧
    (SYPipe.processFileNoCheck lkC
      (SYPipe.init [(("android", "usa"), 40)] "2025-10-11" "23")
      [("x", some recUS)]).bufs ≠ [] ∧
    SYPipe.allUploaded
      (SYPipe.init [(("android", "usa"), 40)] "2025-10-11" "23") = true :=
  ⟨syPipe_runFiles_skip lkC [(("android", "usa"), 40)] "2025-10-11" "23" files,
   by decide, by decide⟩
